import Mathlib

/-
Verification of the EMA crossover signal engine of a trading-bot backend
(src/backend/server.py).

The numeric code is embedded over ℚ (Python float arithmetic idealized as
exact rational arithmetic).  `calculate_ema` calls
`pandas.Series.ewm(span=period).mean()`, whose default `adjust=True`
semantics is the exponentially weighted mean
  y_t = (Σ_{i=0}^{t} (1-α)^i x_{t-i}) / (Σ_{i=0}^{t} (1-α)^i),  α = 2/(span+1),
which we embed directly; `min_periods` defaults to 0, so an output is
produced for every index.
-/

namespace TradingBot

/-- Embeds `get_trading_signal` (server.py lines 179-189): classify the
current EMA pair and the previous EMA pair as BUY/SELL and report a
STRONG_* variant exactly on a fresh cross. -/
def get_trading_signal (ema9 ema21 prev_ema9 prev_ema21 : ℚ) : String :=
  let current_signal : String := if ema9 > ema21 then "BUY" else "SELL"
  let prev_signal : String := if prev_ema9 > prev_ema21 then "BUY" else "SELL"
  if current_signal = "BUY" ∧ prev_signal = "SELL" then "STRONG_BUY"
  else if current_signal = "SELL" ∧ prev_signal = "BUY" then "STRONG_SELL"
  else current_signal

/-- Numerator of the pandas `adjust=True` exponentially weighted mean at
output index `t`: `Σ_{i=0}^{t} (1-a)^i * prices[t-i]`. -/
def ewmNumer (a : ℚ) (prices : List ℚ) (t : ℕ) : ℚ :=
  ((List.range (t + 1)).map fun i => (1 - a) ^ i * prices.getD (t - i) 0).sum

/-- Denominator of the pandas `adjust=True` exponentially weighted mean at
output index `t`: `Σ_{i=0}^{t} (1-a)^i`. -/
def ewmDenom (a : ℚ) (t : ℕ) : ℚ :=
  ((List.range (t + 1)).map fun i => (1 - a) ^ i).sum

/-- Embeds `pandas.Series(prices).ewm(span=span).mean()` with the pandas
default `adjust=True`, for a valid span (pandas itself accepts only
`span ≥ 1`; the fallible call path is `calculate_ema_run` below): the t-th
output is the `(1-a)^i`-weighted mean of the first `t+1` prices,
`a = 2/(span+1)`. -/
def ewmMean (span : ℕ) (prices : List ℚ) : List ℚ :=
  (List.range prices.length).map fun t =>
    ewmNumer (2 / ((span : ℚ) + 1)) prices t / ewmDenom (2 / ((span : ℚ) + 1)) t

/-- Embeds `calculate_ema` (server.py lines 170-177) on the non-raising
paths: histories shorter than the period give a list of zeros of the same
length, otherwise the pandas exponentially weighted mean of the whole
history (meaningful for `period ≥ 1`; see `calculate_ema_run` for the
error pandas raises at span 0). -/
def calculate_ema (prices : List ℚ) (period : ℕ) : List ℚ :=
  if prices.length < period then List.replicate prices.length 0
  else ewmMean period prices

/-- The full fallible behavior of `calculate_ema`: the short-history guard
fires first and returns zeros without touching pandas; otherwise
`Series.ewm(span=period)` validates its argument and raises
`ValueError("span must satisfy: span >= 1")` when `span < 1`, before any
mean is computed; only past that validation is the weighted mean
returned. -/
def calculate_ema_run (prices : List ℚ) (period : ℕ) : Except String (List ℚ) :=
  if prices.length < period then Except.ok (List.replicate prices.length 0)
  else if period < 1 then Except.error "ValueError: span must satisfy: span >= 1"
  else Except.ok (ewmMean period prices)

/-- Reference definition following the spec's words only, not the source:
the Signal Computer must reject a non-positive price with an `InvalidInput`
error and leave state unchanged (non-finite floats are not representable in
the ℚ embedding).  Used to compare with the source's `calculate_ema`, which
performs no validation at all. -/
def calculate_ema_validated (prices : List ℚ) (period : ℕ) : Except String (List ℚ) :=
  if ∃ p ∈ prices, p ≤ 0 then Except.error "InvalidInput"
  else Except.ok (calculate_ema prices period)

/-- Round half to even on ℚ: the rounding mode of Python's built-in
`round`. -/
def roundHalfEven (q : ℚ) : ℤ :=
  if q - ⌊q⌋ < 1/2 then ⌊q⌋
  else if 1/2 < q - ⌊q⌋ then ⌊q⌋ + 1
  else if ⌊q⌋ % 2 = 0 then ⌊q⌋ else ⌊q⌋ + 1

/-- Python's `round(q, n)`: round half to even at the n-th decimal place
(float representation issues idealized away over ℚ). -/
def pyRound (q : ℚ) (n : ℕ) : ℚ := (roundHalfEven (q * 10 ^ n) : ℚ) / 10 ^ n

/-- Python's `random.uniform(a, b) = a + (b-a)*u` with the unit draw
`u = random.random() ∈ [0, 1]` made explicit. -/
def uniform (a b u : ℚ) : ℚ := a + (b - a) * u

/-- One per-symbol record of the snapshot (the `CoinData` model; the three
optional fields are always set on the mock path). -/
structure CoinData where
  symbol : String
  price : ℚ
  change_24h : ℚ
  volume_24h : ℚ
  ema9 : ℚ
  ema21 : ℚ
  signal : String
deriving DecidableEq, Repr

/-- The fixed tracking order of symbols (`MOCK_COINS`, server.py lines
192-195). -/
def MOCK_COINS : List String :=
  ["BTCUSDT", "ETHUSDT", "BNBUSDT", "ADAUSDT", "SOLUSDT",
   "XRPUSDT", "DOTUSDT", "DOGEUSDT", "AVAXUSDT", "LUNAUSDT"]

/-- One loop body of `get_mock_coin_data` (server.py lines 202-223) for a
symbol, with its five `random.uniform` calls given as unit draws
`u1..u5`.  The signal is computed from the unrounded EMA pair, exactly as
in the source. -/
def mkCoin (symbol : String) (u1 u2 u3 u4 u5 : ℚ) : CoinData :=
  let base_price := uniform (1/10) 50000 u1
  let change_24h := uniform (-15) 15 u2
  let volume_24h := uniform 1000000 100000000 u3
  let ema9 := base_price * uniform (98/100) (102/100) u4
  let ema21 := base_price * uniform (97/100) (103/100) u5
  let signal := if ema9 > ema21 then "BUY" else "SELL"
  ⟨symbol, pyRound base_price 6, pyRound change_24h 2, pyRound volume_24h 2,
    pyRound ema9 6, pyRound ema21 6, signal⟩

/-- The `for symbol in MOCK_COINS` loop of `get_mock_coin_data`, consuming
five unit draws from the stream `draws` per symbol. -/
def mockLoop (draws : ℕ → ℚ) : List String → ℕ → List CoinData
  | [], _ => []
  | s :: rest, k =>
      mkCoin s (draws k) (draws (k + 1)) (draws (k + 2)) (draws (k + 3)) (draws (k + 4)) ::
        mockLoop draws rest (k + 5)

/-- Embeds `get_mock_coin_data` (server.py lines 197-225) with an injected
randomness stream of unit draws. -/
def get_mock_coin_data (draws : ℕ → ℚ) : List CoinData :=
  mockLoop draws MOCK_COINS 0

/-- The exception a `send_text` call can raise: `WebSocketDisconnect` (the
only type the endpoint's `except` clause names) or any other exception. -/
inductive SendErr where
  | wsDisconnect
  | otherErr
deriving DecidableEq, Repr

/-- A subscriber handle: an identity plus the transport fault, if any, that
its next send would raise. -/
structure Subscriber where
  id : ℕ
  sendErr : Option SendErr
deriving DecidableEq, Repr

/-- `websocket.send_text(msg)`: succeeds, or raises the subscriber's
pending transport error. -/
def send_text (ws : Subscriber) (msg : String) : Except SendErr Unit :=
  match ws.sendErr with
  | none => Except.ok ()
  | some e => Except.error e

/-- The subscriber registry (`ConnectionManager`, server.py lines 83-103):
a plain list of open sockets. -/
structure ConnectionManager where
  active_connections : List Subscriber
deriving DecidableEq, Repr

/-- `ConnectionManager.disconnect` (lines 91-93): remove the websocket from
the registry if present (`list.remove` drops the first occurrence). -/
def ConnectionManager.disconnect (mgr : ConnectionManager) (ws : Subscriber) : ConnectionManager :=
  if ws ∈ mgr.active_connections then ⟨mgr.active_connections.erase ws⟩ else mgr

/-- Whether `send_text` on this subscriber succeeds. -/
def sendOk (ws : Subscriber) (msg : String) : Bool :=
  match send_text ws msg with
  | Except.ok _ => true
  | Except.error _ => false

/-- `ConnectionManager.broadcast` (lines 98-103): try to send to every
connection in registry order, swallowing every exception
(`try/.../except: pass`); the registry itself is not modified.  Returns
the (unchanged) manager and the per-subscriber delivery outcomes. -/
def ConnectionManager.broadcast (mgr : ConnectionManager) (msg : String) :
    ConnectionManager × List (Subscriber × Bool) :=
  (mgr, mgr.active_connections.map fun c => (c, sendOk c msg))

/-- Status of one per-connection delivery loop after an iteration. -/
inductive LoopStatus where
  | running
  | exited
  | crashed
deriving DecidableEq, Repr

/-- One iteration of the per-connection delivery loop of
`websocket_endpoint` (server.py lines 435-448): send the snapshot to this
socket; on `WebSocketDisconnect` the `except` handler deregisters the
socket and the loop exits; any other exception propagates uncaught and no
deregistration happens. -/
def websocket_tick (mgr : ConnectionManager) (ws : Subscriber) (msg : String) :
    ConnectionManager × LoopStatus :=
  match send_text ws msg with
  | Except.ok _ => (mgr, LoopStatus.running)
  | Except.error SendErr.wsDisconnect => (mgr.disconnect ws, LoopStatus.exited)
  | Except.error SendErr.otherErr => (mgr, LoopStatus.crashed)

end TradingBot

namespace TradingBot

/-- Helper: the two string classifications differ. -/
theorem buy_ne_sell : ("BUY" : String) ≠ "SELL" := by decide

/-- Claim C1: `get_trading_signal` returns STRONG_BUY exactly when
`ema9 > ema21` and `prev_ema9 ≤ prev_ema21`, STRONG_SELL exactly when
`ema9 ≤ ema21` and `prev_ema9 > prev_ema21`, and otherwise BUY if
`ema9 > ema21` and SELL otherwise (equal EMAs classify as SELL). -/
theorem get_trading_signal_spec (e9 e21 p9 p21 : ℚ) :
    (get_trading_signal e9 e21 p9 p21 = "STRONG_BUY" ↔ e9 > e21 ∧ p9 ≤ p21) ∧
    (get_trading_signal e9 e21 p9 p21 = "STRONG_SELL" ↔ e9 ≤ e21 ∧ p9 > p21) ∧
    (e9 > e21 → p9 > p21 → get_trading_signal e9 e21 p9 p21 = "BUY") ∧
    (e9 ≤ e21 → p9 ≤ p21 → get_trading_signal e9 e21 p9 p21 = "SELL") := by
  by_cases h1 : e21 < e9 <;> by_cases h2 : p21 < p9 <;>
    simp [get_trading_signal, h1, h2, not_lt.mp, le_of_lt]

/-- Witness for C1: concrete evaluations at EMA pairs realizing each
hypothesis of `get_trading_signal_spec`. -/
theorem get_trading_signal_spec_witness :
    (get_trading_signal 2 1 1 1 = "STRONG_BUY" ↔ (2 : ℚ) > 1 ∧ (1 : ℚ) ≤ 1) ∧
    get_trading_signal 3 1 2 1 = "BUY" ∧
    get_trading_signal 1 2 1 2 = "SELL" :=
  ⟨(get_trading_signal_spec 2 1 1 1).1,
   (get_trading_signal_spec 3 1 2 1).2.2.1 (by norm_num) (by norm_num),
   (get_trading_signal_spec 1 2 1 2).2.2.2 (by norm_num) (by norm_num)⟩

/-- Counterexample to claim C2: for the single-price history `[100]`, the
code returns `[0]` for both spans 9 and 21 (the short-history guard), not
the seeded first price `[100]`. -/
theorem ema_seed_single_price_cex :
    calculate_ema [(100 : ℚ)] 9 = [0] ∧ calculate_ema [(100 : ℚ)] 21 = [0] ∧
    calculate_ema [(100 : ℚ)] 9 ≠ [(100 : ℚ)] := by decide

/-- Claim C2 (amended): for any symbol's first observed price `p`, the
computed fast EMA and slow EMA are both `0`, not `p`: `calculate_ema`
returns zeros whenever the history is shorter than the period, so no
seeding to the first price occurs. -/
theorem ema_single_price_zero (p : ℚ) :
    calculate_ema [p] 9 = [0] ∧ calculate_ema [p] 21 = [0] := by
  constructor <;> simp [calculate_ema]

/-- Counterexample to claim C3: for prices `[1, 2]` and span 2
(`α = 2/3`), the second EMA output is `7/4` (pandas `adjust=True`), while
the claimed recurrence `α*p2 + (1-α)*ema1` gives `5/3`. -/
theorem ema_recurrence_alpha_cex :
    (calculate_ema [1, 2] 2).getD 1 0 ≠
      (2 / ((2 : ℚ) + 1)) * (([1, 2] : List ℚ).getD 1 0) +
        (1 - 2 / ((2 : ℚ) + 1)) * ((calculate_ema [1, 2] 2).getD 0 0) := by
  norm_num [calculate_ema, ewmMean, ewmNumer, ewmDenom, List.range_succ]

/-- The weighted-mean denominator at index 0 is 1. -/
theorem ewmDenom_zero (a : ℚ) : ewmDenom a 0 = 1 := by
  simp [ewmDenom, List.range_succ]

/-- Recurrence of the weighted-mean denominator. -/
theorem ewmDenom_succ (a : ℚ) (t : ℕ) :
    ewmDenom a (t + 1) = 1 + (1 - a) * ewmDenom a t := by
  unfold ewmDenom
  rw [List.sum_range_succ']
  simp [pow_succ', List.sum_map_mul_left]

/-- Recurrence of the weighted-mean numerator. -/
theorem ewmNumer_succ (a : ℚ) (prices : List ℚ) (t : ℕ) :
    ewmNumer a prices (t + 1) = prices.getD (t + 1) 0 + (1 - a) * ewmNumer a prices t := by
  unfold ewmNumer
  rw [List.sum_range_succ']
  simp [pow_succ', Nat.add_sub_add_right, mul_assoc, List.sum_map_mul_left]

/-- The weighted-mean denominator is positive whenever `a ≤ 1`. -/
theorem ewmDenom_pos (a : ℚ) (ha : a ≤ 1) (t : ℕ) : 0 < ewmDenom a t := by
  induction t with
  | zero => rw [ewmDenom_zero] ; norm_num
  | succ n ih =>
      rw [ewmDenom_succ]
      have h1 : 0 ≤ (1 - a) * ewmDenom a n := mul_nonneg (by linarith) (le_of_lt ih)
      linarith

/-- In-range entries of `calculate_ema` (history at least as long as the
period) are the weighted means `ewmNumer / ewmDenom`. -/
theorem calculate_ema_getD (prices : List ℚ) (s t : ℕ)
    (hlen : s ≤ prices.length) (ht : t < prices.length) :
    (calculate_ema prices s).getD t 0 =
      ewmNumer (2 / ((s : ℚ) + 1)) prices t / ewmDenom (2 / ((s : ℚ) + 1)) t := by
  unfold calculate_ema
  rw [if_neg (by omega)]
  unfold ewmMean
  rw [List.getD_eq_getElem _ _ (by simpa using ht)]
  simp

/-- Algebraic core of the `adjust=True` recurrence: dividing the numerator
and denominator recurrences yields a convex combination with the
time-varying weight `1 / (1 + (1-a)*D)`. -/
theorem adjust_recurrence_algebra (a D N p : ℚ) (hD : D ≠ 0) (hD' : 1 + (1 - a) * D ≠ 0) :
    (p + (1 - a) * N) / (1 + (1 - a) * D) =
      (1 / (1 + (1 - a) * D)) * p + (1 - 1 / (1 + (1 - a) * D)) * (N / D) := by
  field_simp
  ring

/-- Claim C3 (amended): consecutive outputs of `calculate_ema` (history at
least as long as the span) satisfy the pandas `adjust=True` recurrence
`ema2 = w*p2 + (1-w)*ema1` with the time-varying weight
`w = 1 / Σ_{i=0}^{t+1} (1-α)^i`, `α = 2/(s+1)` — not the constant-α
recurrence of the claim (that is only its limit as `t → ∞`). -/
theorem ema_adjust_recurrence (prices : List ℚ) (s t : ℕ) (hs : 1 ≤ s)
    (hlen : s ≤ prices.length) (ht : t + 1 < prices.length) :
    (calculate_ema prices s).getD (t + 1) 0 =
      (1 / ewmDenom (2 / ((s : ℚ) + 1)) (t + 1)) * prices.getD (t + 1) 0 +
        (1 - 1 / ewmDenom (2 / ((s : ℚ) + 1)) (t + 1)) *
          ((calculate_ema prices s).getD t 0) := by
  have hs1 : (1 : ℚ) ≤ (s : ℚ) := by exact_mod_cast hs
  have ha : (2 / ((s : ℚ) + 1)) ≤ 1 := by
    rw [div_le_one (by linarith)]
    linarith
  have hD := ewmDenom_pos (2 / ((s : ℚ) + 1)) ha t
  have hD' := ewmDenom_pos (2 / ((s : ℚ) + 1)) ha (t + 1)
  rw [calculate_ema_getD prices s (t + 1) hlen ht,
      calculate_ema_getD prices s t hlen (by omega)]
  rw [ewmNumer_succ, ewmDenom_succ]
  rw [ewmDenom_succ] at hD'
  exact adjust_recurrence_algebra _ _ _ _ (ne_of_gt hD) (ne_of_gt hD')

/-- Witness for C3's amended recurrence at prices `[1, 2, 3]`, span 2,
`t = 0`. -/
theorem ema_adjust_recurrence_witness :
    (calculate_ema [1, 2, 3] 2).getD (0 + 1) 0 =
      (1 / ewmDenom (2 / (((2 : ℕ) : ℚ) + 1)) (0 + 1)) * (([1, 2, 3] : List ℚ).getD (0 + 1) 0) +
        (1 - 1 / ewmDenom (2 / (((2 : ℕ) : ℚ) + 1)) (0 + 1)) *
          ((calculate_ema [1, 2, 3] 2).getD 0 0) :=
  ema_adjust_recurrence [1, 2, 3] 2 0 (by norm_num) (by norm_num) (by norm_num)

/-- Entries of a negated price list are the negated entries (default 0). -/
theorem getD_map_neg (l : List ℚ) (k : ℕ) :
    (l.map fun p => -p).getD k 0 = -(l.getD k 0) := by
  by_cases h : k < l.length
  · rw [List.getD_eq_getElem _ _ (by simpa using h), List.getD_eq_getElem _ _ h,
      List.getElem_map]
  · rw [List.getD_eq_default _ _ (by simpa using not_lt.mp h),
      List.getD_eq_default _ _ (not_lt.mp h), neg_zero]

/-- The weighted-mean numerator is odd in the price list. -/
theorem ewmNumer_neg (a : ℚ) (l : List ℚ) (t : ℕ) :
    ewmNumer a (l.map fun p => -p) t = -ewmNumer a l t := by
  unfold ewmNumer
  have h : ∀ i : ℕ, (1 - a) ^ i * (l.map fun p => -p).getD (t - i) 0
      = -1 * ((1 - a) ^ i * l.getD (t - i) 0) := by
    intro i
    rw [getD_map_neg]
    ring
  simp only [h]
  simp only [List.sum_map_mul_left]
  simp only [neg_one_mul]

/-- Counterexample to claim C4: the non-positive prices `[-1, -2]` are not
rejected — `calculate_ema` smooths them normally to `[-1, -7/4]`, whereas
the spec's validated version (`calculate_ema_validated`) would reject them
with an `InvalidInput` error. -/
theorem invalid_price_not_rejected_cex :
    calculate_ema [(-1 : ℚ), -2] 2 = [-1, -7/4] ∧
    calculate_ema_validated [(-1 : ℚ), -2] 2 = Except.error "InvalidInput" ∧
    Except.ok (calculate_ema [(-1 : ℚ), -2] 2) ≠ calculate_ema_validated [(-1 : ℚ), -2] 2 := by
  have h1 : calculate_ema [(-1 : ℚ), -2] 2 = [-1, -7/4] := by
    norm_num [calculate_ema, ewmMean, ewmNumer, ewmDenom, List.range_succ]
  have h2 : calculate_ema_validated [(-1 : ℚ), -2] 2 = Except.error "InvalidInput" := by
    unfold calculate_ema_validated
    rw [if_pos ⟨-1, by norm_num⟩]
  exact ⟨h1, h2, by simp [h2]⟩

/-- Claim C4 (amended): `calculate_ema` performs no input validation: there
is no `InvalidInput` path, and non-positive prices go through the same
smoothing formula as any others — negating every input price negates every
EMA output. -/
theorem calculate_ema_neg_map (prices : List ℚ) (period : ℕ) :
    calculate_ema (prices.map fun p => -p) period =
      (calculate_ema prices period).map fun p => -p := by
  unfold calculate_ema
  rw [List.length_map]
  by_cases h : prices.length < period
  · simp [h]
  · rw [if_neg h, if_neg h]
    unfold ewmMean
    rw [List.length_map, List.map_map]
    apply List.map_congr_left
    intro t _
    simp only [Function.comp_apply]
    rw [ewmNumer_neg, neg_div]

/-- Counterexample to claim C10: at period 0 the short-history guard
`len(prices) < 0` can never fire, so the call reaches
`Series.ewm(span=0)`, which raises `ValueError` — the program signals an
error instead of returning a same-length list. -/
theorem calculate_ema_span_zero_raises_cex :
    calculate_ema_run [(5 : ℚ)] 0 =
      Except.error "ValueError: span must satisfy: span >= 1" := by
  rfl

/-- Claim C10 (amended): for every list of prices and every period ≥ 1,
`calculate_ema` returns without error a list of the same length as its
input, and returns all zeros (no error, no first-price seeding) whenever
the input is shorter than the period; period 0 instead raises pandas'
`ValueError`. -/
theorem calculate_ema_run_length_zeros (prices : List ℚ) (period : ℕ) (hp : 1 ≤ period) :
    calculate_ema_run prices period = Except.ok (calculate_ema prices period) ∧
    (calculate_ema prices period).length = prices.length ∧
    (prices.length < period → calculate_ema prices period = List.replicate prices.length 0) := by
  refine ⟨?_, ?_, ?_⟩
  · unfold calculate_ema_run calculate_ema
    by_cases h : prices.length < period
    · simp [h]
    · simp [h, Nat.not_lt.mpr hp]
  · unfold calculate_ema
    by_cases h : prices.length < period
    · simp [h]
    · simp [h, ewmMean]
  · intro h
    unfold calculate_ema
    simp [h]

/-- Witness for C10's amended statement at the concrete input `[5]` with
period 9. -/
theorem calculate_ema_run_length_zeros_witness :
    calculate_ema_run [(5 : ℚ)] 9 = Except.ok (calculate_ema [(5 : ℚ)] 9) ∧
    (calculate_ema [(5 : ℚ)] 9).length = 1 ∧
    calculate_ema [(5 : ℚ)] 9 = List.replicate 1 0 := by
  have h := calculate_ema_run_length_zeros [(5 : ℚ)] 9 (by norm_num)
  exact ⟨h.1, h.2.1, h.2.2 (by decide)⟩

/-- The symbol of a generated record is the loop symbol. -/
theorem mkCoin_symbol (s : String) (u1 u2 u3 u4 u5 : ℚ) :
    (mkCoin s u1 u2 u3 u4 u5).symbol = s := rfl

/-- The signal of a generated record, written out. -/
theorem mkCoin_signal (s : String) (u1 u2 u3 u4 u5 : ℚ) :
    (mkCoin s u1 u2 u3 u4 u5).signal =
      if uniform (1/10) 50000 u1 * uniform (98/100) (102/100) u4 >
          uniform (1/10) 50000 u1 * uniform (97/100) (103/100) u5
      then "BUY" else "SELL" := rfl

/-- The loop emits one record per symbol, in symbol order. -/
theorem mockLoop_map_symbol (draws : ℕ → ℚ) (syms : List String) (k : ℕ) :
    (mockLoop draws syms k).map CoinData.symbol = syms := by
  induction syms generalizing k with
  | nil => rfl
  | cons s rest ih => simp [mockLoop, mkCoin_symbol, ih]

/-- Claim C7: every snapshot lists its per-symbol records exactly in the
fixed configured tracking order `MOCK_COINS`, for every randomness stream
— hence the same order on every tick, independent of arrival or insertion
order. -/
theorem mock_snapshot_order (draws : ℕ → ℚ) :
    (get_mock_coin_data draws).map CoinData.symbol = MOCK_COINS :=
  mockLoop_map_symbol draws MOCK_COINS 0

/-- Every member of the loop output is a `mkCoin` of five consecutive
draws. -/
theorem mem_mockLoop (draws : ℕ → ℚ) (syms : List String) (k : ℕ) (c : CoinData)
    (hc : c ∈ mockLoop draws syms k) :
    ∃ s j, c = mkCoin s (draws j) (draws (j + 1)) (draws (j + 2)) (draws (j + 3))
      (draws (j + 4)) := by
  induction syms generalizing k with
  | nil => simp [mockLoop] at hc
  | cons s rest ih =>
      simp only [mockLoop, List.mem_cons] at hc
      rcases hc with h | h
      · exact ⟨s, k, h⟩
      · exact ih _ h

/-- `random.uniform(a, b)` lies in `[a, b]` for a unit draw in `[0, 1]`. -/
theorem uniform_bounds (a b u : ℚ) (hab : a ≤ b) (h0 : 0 ≤ u) (h1 : u ≤ 1) :
    a ≤ uniform a b u ∧ uniform a b u ≤ b := by
  unfold uniform
  constructor
  · nlinarith
  · nlinarith

/-- Round half to even never drops below an integer lower bound. -/
theorem le_roundHalfEven (A : ℤ) (x : ℚ) (h : (A : ℚ) ≤ x) : A ≤ roundHalfEven x := by
  unfold roundHalfEven
  have hfl : A ≤ ⌊x⌋ := Int.le_floor.mpr h
  split_ifs <;> omega

/-- Round half to even never exceeds an integer upper bound. -/
theorem roundHalfEven_le (B : ℤ) (x : ℚ) (h : x ≤ (B : ℚ)) : roundHalfEven x ≤ B := by
  unfold roundHalfEven
  have hfl : ⌊x⌋ ≤ B := by
    have h2 := Int.floor_le_floor (α := ℚ) h
    simpa using h2
  have hfx : (⌊x⌋ : ℚ) ≤ x := Int.floor_le x
  split_ifs with h1 h2 h3
  · exact hfl
  · have hlt : (⌊x⌋ : ℚ) < (B : ℚ) := by linarith
    have : ⌊x⌋ < B := by exact_mod_cast hlt
    omega
  · exact hfl
  · have hge : (⌊x⌋ : ℚ) + 1/2 ≤ x := by linarith [not_lt.mp h1]
    have hlt : (⌊x⌋ : ℚ) < (B : ℚ) := by linarith
    have : ⌊x⌋ < B := by exact_mod_cast hlt
    omega

/-- Scaled lower bound for Python rounding. -/
theorem le_pyRound (n : ℕ) (A : ℤ) (x : ℚ) (h : (A : ℚ) ≤ x * 10 ^ n) :
    (A : ℚ) / 10 ^ n ≤ pyRound x n := by
  unfold pyRound
  have h1 : A ≤ roundHalfEven (x * 10 ^ n) := le_roundHalfEven A _ h
  have h2 : (A : ℚ) ≤ (roundHalfEven (x * 10 ^ n) : ℚ) := by exact_mod_cast h1
  have hp : (0 : ℚ) < 10 ^ n := by positivity
  exact (div_le_div_iff_of_pos_right hp).mpr h2

/-- Scaled upper bound for Python rounding. -/
theorem pyRound_le (n : ℕ) (B : ℤ) (x : ℚ) (h : x * 10 ^ n ≤ (B : ℚ)) :
    pyRound x n ≤ (B : ℚ) / 10 ^ n := by
  unfold pyRound
  have h1 : roundHalfEven (x * 10 ^ n) ≤ B := roundHalfEven_le B _ h
  have h2 : (roundHalfEven (x * 10 ^ n) : ℚ) ≤ (B : ℚ) := by exact_mod_cast h1
  have hp : (0 : ℚ) < 10 ^ n := by positivity
  exact (div_le_div_iff_of_pos_right hp).mpr h2

/-- Ranges of one generated record, given in-range unit draws. -/
theorem mkCoin_ranges (s : String) (u1 u2 u3 u4 u5 : ℚ)
    (h1 : 0 ≤ u1) (h1' : u1 ≤ 1) (h2 : 0 ≤ u2) (h2' : u2 ≤ 1)
    (h3 : 0 ≤ u3) (h3' : u3 ≤ 1) :
    0 < (mkCoin s u1 u2 u3 u4 u5).price ∧
    -15 ≤ (mkCoin s u1 u2 u3 u4 u5).change_24h ∧
    (mkCoin s u1 u2 u3 u4 u5).change_24h ≤ 15 ∧
    0 < (mkCoin s u1 u2 u3 u4 u5).volume_24h := by
  have hp := uniform_bounds (1/10) 50000 u1 (by norm_num) h1 h1'
  have hc := uniform_bounds (-15) 15 u2 (by norm_num) h2 h2'
  have hv := uniform_bounds 1000000 100000000 u3 (by norm_num) h3 h3'
  refine ⟨?_, ?_, ?_, ?_⟩
  · show 0 < pyRound (uniform (1/10) 50000 u1) 6
    have hb := le_pyRound 6 100000 (uniform (1/10) 50000 u1)
      (by push_cast ; nlinarith [hp.1])
    have he : ((100000 : ℤ) : ℚ) / 10 ^ 6 = 1/10 := by norm_num
    rw [he] at hb
    linarith
  · show -15 ≤ pyRound (uniform (-15) 15 u2) 2
    have hb := le_pyRound 2 (-1500) (uniform (-15) 15 u2)
      (by push_cast ; nlinarith [hc.1])
    have he : (((-1500) : ℤ) : ℚ) / 10 ^ 2 = -15 := by norm_num
    rw [he] at hb
    linarith
  · show pyRound (uniform (-15) 15 u2) 2 ≤ 15
    have hb := pyRound_le 2 1500 (uniform (-15) 15 u2)
      (by push_cast ; nlinarith [hc.2])
    have he : ((1500 : ℤ) : ℚ) / 10 ^ 2 = 15 := by norm_num
    rw [he] at hb
    linarith
  · show 0 < pyRound (uniform 1000000 100000000 u3) 2
    have hb := le_pyRound 2 100000000 (uniform 1000000 100000000 u3)
      (by push_cast ; nlinarith [hv.1])
    have he : ((100000000 : ℤ) : ℚ) / 10 ^ 2 = 1000000 := by norm_num
    rw [he] at hb
    linarith

/-- Claim C8: for unit draws in `[0, 1]` (the contract of
`random.uniform`), every record of the synthetic feed has a strictly
positive price, a 24h change within `[-15, 15]`, and a strictly positive
24h volume. -/
theorem mock_ranges (draws : ℕ → ℚ) (hd : ∀ n, 0 ≤ draws n ∧ draws n ≤ 1)
    (c : CoinData) (hc : c ∈ get_mock_coin_data draws) :
    0 < c.price ∧ -15 ≤ c.change_24h ∧ c.change_24h ≤ 15 ∧ 0 < c.volume_24h := by
  obtain ⟨s, j, rfl⟩ := mem_mockLoop draws MOCK_COINS 0 c hc
  exact mkCoin_ranges s _ _ _ _ _ (hd j).1 (hd j).2 (hd (j + 1)).1 (hd (j + 1)).2
    (hd (j + 2)).1 (hd (j + 2)).2

/-- Witness for C8: the first record of the snapshot for the all-zero draw
stream. -/
theorem mock_ranges_witness :
    0 < (mkCoin "BTCUSDT" 0 0 0 0 0).price ∧
    -15 ≤ (mkCoin "BTCUSDT" 0 0 0 0 0).change_24h ∧
    (mkCoin "BTCUSDT" 0 0 0 0 0).change_24h ≤ 15 ∧
    0 < (mkCoin "BTCUSDT" 0 0 0 0 0).volume_24h :=
  mock_ranges (fun _ => 0) (fun _ => ⟨le_refl 0, by norm_num⟩) _
    (by simp [get_mock_coin_data, MOCK_COINS, mockLoop])

/-- Claim C9: every record of the mock data path carries signal BUY or
SELL; STRONG_BUY and STRONG_SELL never occur there (the signal is derived
from the current EMA pair only, with no previous-tick comparison). -/
theorem mock_signal_plain (draws : ℕ → ℚ) (c : CoinData)
    (hc : c ∈ get_mock_coin_data draws) :
    (c.signal = "BUY" ∨ c.signal = "SELL") ∧
    c.signal ≠ "STRONG_BUY" ∧ c.signal ≠ "STRONG_SELL" := by
  obtain ⟨s, j, rfl⟩ := mem_mockLoop draws MOCK_COINS 0 c hc
  rw [mkCoin_signal]
  split_ifs
  · exact ⟨Or.inl rfl, by decide, by decide⟩
  · exact ⟨Or.inr rfl, by decide, by decide⟩

/-- Witness for C9: the first record of the snapshot for the all-zero draw
stream. -/
theorem mock_signal_plain_witness :
    ((mkCoin "BTCUSDT" 0 0 0 0 0).signal = "BUY" ∨
      (mkCoin "BTCUSDT" 0 0 0 0 0).signal = "SELL") ∧
    (mkCoin "BTCUSDT" 0 0 0 0 0).signal ≠ "STRONG_BUY" ∧
    (mkCoin "BTCUSDT" 0 0 0 0 0).signal ≠ "STRONG_SELL" :=
  mock_signal_plain (fun _ => 0) _
    (by simp [get_mock_coin_data, MOCK_COINS, mockLoop])

/-- Claim C5: even when the send to one registered subscriber fails,
`broadcast` still attempts delivery to every subscriber in the registry
(the outcome list covers the whole registry in order) and completes
without raising; every subscriber with a healthy transport is delivered
to. -/
theorem broadcast_attempts_all (mgr : ConnectionManager) (msg : String) (ws : Subscriber)
    (hmem : ws ∈ mgr.active_connections) (hfail : ws.sendErr ≠ none) :
    ((mgr.broadcast msg).2.map Prod.fst = mgr.active_connections) ∧
    (∀ c ∈ mgr.active_connections, c.sendErr = none → (c, true) ∈ (mgr.broadcast msg).2) := by
  constructor
  · simp [ConnectionManager.broadcast, List.map_map, Function.comp_def]
  · intro c hcmem hnone
    have hok : sendOk c msg = true := by simp [sendOk, send_text, hnone]
    simp only [ConnectionManager.broadcast]
    exact List.mem_map.mpr ⟨c, hcmem, by rw [hok]⟩

/-- Witness for C5: a registry with one failing and one healthy
subscriber. -/
theorem broadcast_attempts_all_witness :
    ((ConnectionManager.mk [⟨0, some SendErr.wsDisconnect⟩, ⟨1, none⟩]).broadcast "m").2.map
        Prod.fst = [⟨0, some SendErr.wsDisconnect⟩, ⟨1, none⟩] ∧
    ((⟨1, none⟩ : Subscriber), true) ∈
      ((ConnectionManager.mk [⟨0, some SendErr.wsDisconnect⟩, ⟨1, none⟩]).broadcast "m").2 := by
  have h := broadcast_attempts_all
    (ConnectionManager.mk [⟨0, some SendErr.wsDisconnect⟩, ⟨1, none⟩]) "m"
    ⟨0, some SendErr.wsDisconnect⟩ (List.mem_cons_self _ _) (by simp)
  exact ⟨h.1, h.2 ⟨1, none⟩ (by simp) rfl⟩

/-- Counterexample to claim C6: in `ConnectionManager.broadcast`, a
subscriber whose send fails is still in the active-connections list after
the broadcast completes — the `try/except: pass` removes nobody. -/
theorem broadcast_failure_not_removed_cex :
    ((⟨0, some SendErr.wsDisconnect⟩ : Subscriber) ∈
      ((ConnectionManager.mk [⟨0, some SendErr.wsDisconnect⟩]).broadcast
        "m").1.active_connections) ∧
    sendOk ⟨0, some SendErr.wsDisconnect⟩ "m" = false := by
  exact ⟨List.mem_cons_self _ _, rfl⟩

/-- Claim C6 (amended): the broadcast loop never deregisters anybody; a
subscriber is removed from the registry only on the `websocket_endpoint`
path and only when its send fails with `WebSocketDisconnect` — then it is
absent afterwards while every other subscriber stays registered. -/
theorem delivery_failure_removal (mgr : ConnectionManager) (ws : Subscriber) (msg : String)
    (hfail : ws.sendErr = some SendErr.wsDisconnect)
    (hcount : mgr.active_connections.count ws ≤ 1) :
    ws ∉ (websocket_tick mgr ws msg).1.active_connections ∧
    (∀ c ∈ mgr.active_connections, c ≠ ws →
      c ∈ (websocket_tick mgr ws msg).1.active_connections) ∧
    (∀ (mgr' : ConnectionManager) (msg' : String), (mgr'.broadcast msg').1 = mgr') := by
  have htick : websocket_tick mgr ws msg = (mgr.disconnect ws, LoopStatus.exited) := by
    simp [websocket_tick, send_text, hfail]
  rw [htick]
  refine ⟨?_, ?_, fun _ _ => rfl⟩
  · unfold ConnectionManager.disconnect
    by_cases hmem : ws ∈ mgr.active_connections
    · rw [if_pos hmem]
      intro hcontra
      have h1 : (mgr.active_connections.erase ws).count ws =
          mgr.active_connections.count ws - 1 :=
        List.count_erase_self ws mgr.active_connections
      have h2 : 0 < (mgr.active_connections.erase ws).count ws :=
        List.count_pos_iff.mpr hcontra
      have h3 : 0 < mgr.active_connections.count ws := List.count_pos_iff.mpr hmem
      omega
    · rw [if_neg hmem]
      exact hmem
  · intro c hcmem hne
    unfold ConnectionManager.disconnect
    by_cases hmem : ws ∈ mgr.active_connections
    · rw [if_pos hmem]
      exact (List.mem_erase_of_ne hne).mpr hcmem
    · rw [if_neg hmem]
      exact hcmem

/-- Witness for C6's amended statement: a two-subscriber registry where
the first send raises `WebSocketDisconnect`. -/
theorem delivery_failure_removal_witness :
    ((⟨0, some SendErr.wsDisconnect⟩ : Subscriber) ∉
      (websocket_tick (ConnectionManager.mk [⟨0, some SendErr.wsDisconnect⟩, ⟨1, none⟩])
        ⟨0, some SendErr.wsDisconnect⟩ "m").1.active_connections) ∧
    ((⟨1, none⟩ : Subscriber) ∈
      (websocket_tick (ConnectionManager.mk [⟨0, some SendErr.wsDisconnect⟩, ⟨1, none⟩])
        ⟨0, some SendErr.wsDisconnect⟩ "m").1.active_connections) := by
  have h := delivery_failure_removal
    (ConnectionManager.mk [⟨0, some SendErr.wsDisconnect⟩, ⟨1, none⟩])
    ⟨0, some SendErr.wsDisconnect⟩ "m" rfl (by decide)
  exact ⟨h.1, h.2.1 ⟨1, none⟩ (by simp) (by decide)⟩

end TradingBot
